import Mathlib

/-!
# Verification of the EOT container decoder

Shallow embedding of `src/eot_tools/eot.py` (classes `StructHelper` and
`EOTFile`).  Bytes are modelled as natural numbers, a byte buffer as
`List Nat`, and the sequential cursor of `StructHelper` as an explicit
offset threaded through a parser monad.  Python exceptions raised during
decoding are modelled by the error type `Err`.
-/

set_option maxRecDepth 8000

/-- The distinct failure kinds of the decoder (the Python code raises
`struct.error`, `ValueError`, `UnicodeDecodeError` and
`NotImplementedError`; we separate them by the check that raises). -/
inductive Err where
  | truncated
  | unknownVersion
  | badMagic
  | nonZeroReserved (i : Nat)
  | badPadding (i : Nat)
  | invalidText
  | unexpectedSignature
  | unsupportedCompression
  | unsupportedEncryption
deriving DecidableEq, Repr

/-- A sequential parser over a byte buffer: given the buffer and the
current offset, it fails or returns a value together with the new offset.
This models `StructHelper`'s `_data`/`_offset` pair. -/
def Parser (α : Type) : Type := List Nat → Nat → Except Err (α × Nat)

def Parser.pure (a : α) : Parser α := fun _ off => .ok (a, off)

def Parser.bind (p : Parser α) (f : α → Parser β) : Parser β := fun data off =>
  match p data off with
  | .ok x => f x.1 data x.2
  | .error e => .error e

instance : Monad Parser where
  pure := Parser.pure
  bind := Parser.bind

/-- Raising an exception inside the decoder. -/
def Parser.throw (e : Err) : Parser α := fun _ _ => .error e

/-- Little-endian value of a list of bytes. -/
def leVal : List Nat → Nat
  | [] => 0
  | b :: rest => b + 256 * leVal rest

/-- The unsigned 16-bit little-endian value stored at byte offset `off`. -/
def u16At (data : List Nat) (off : Nat) : Nat := leVal ((data.drop off).take 2)

/-- The unsigned 32-bit little-endian value stored at byte offset `off`. -/
def u32At (data : List Nat) (off : Nat) : Nat := leVal ((data.drop off).take 4)

/-- `StructHelper._get_unsigned_long`: `struct.unpack_from("<L", ...)`;
fails unless 4 bytes remain, advances the offset by 4. -/
def getUnsignedLong : Parser Nat := fun data off =>
  if off + 4 ≤ data.length then .ok (u32At data off, off + 4) else .error .truncated

/-- `StructHelper._get_unsigned_short`: `struct.unpack_from("<H", ...)`;
fails unless 2 bytes remain, advances the offset by 2. -/
def getUnsignedShort : Parser Nat := fun data off =>
  if off + 2 ≤ data.length then .ok (u16At data off, off + 2) else .error .truncated

/-- `StructHelper._get_bytes`: `struct.unpack_from("<Ns", ...)`; fails
unless `n` bytes remain, returns exactly `n` bytes. -/
def getBytes (n : Nat) : Parser (List Nat) := fun data off =>
  if off + n ≤ data.length then .ok ((data.drop off).take n, off + n) else .error .truncated

/-- Strict UTF-16-LE decoding (Python `bytes.decode("utf-16-le")`):
pairs of bytes are little-endian code units, surrogate pairs combine to
one code point, and an odd tail byte or a malformed surrogate raises
`UnicodeDecodeError` (here: `none`).  Returns the decoded code points. -/
def utf16leDecode : List Nat → Option (List Nat)
  | [] => some []
  | [_] => none
  | b0 :: b1 :: rest =>
    let u := b0 + 256 * b1
    if 0xD800 ≤ u ∧ u < 0xDC00 then
      match rest with
      | b2 :: b3 :: rest2 =>
        let v := b2 + 256 * b3
        if 0xDC00 ≤ v ∧ v < 0xE000 then
          match utf16leDecode rest2 with
          | some cs => some ((0x10000 + (u - 0xD800) * 1024 + (v - 0xDC00)) :: cs)
          | none => none
        else none
      | [_] => none
      | [] => none
    else if 0xDC00 ≤ u ∧ u < 0xE000 then none
    else
      match utf16leDecode rest with
      | some cs => some (u :: cs)
      | none => none

/-- Python `str.split("\x00")` on a string modelled as its list of code
points: split on every occurrence of the code point 0, keeping empty
segments (so the result is never the empty list). -/
def splitOnZero : List Nat → List (List Nat)
  | [] => [[]]
  | 0 :: rest => [] :: splitOnZero rest
  | c :: rest =>
    match splitOnZero rest with
    | s :: ss => (c :: s) :: ss
    | [] => [[c]]

/-- Magic number for data corruption checks (section 3 of the EOT spec). -/
def MAGIC_NUMBER : Nat := 0x504C

/-- `ProcessingFlag.TT_COMPRESSED`. -/
def TT_COMPRESSED : Nat := 0x00000004

/-- `ProcessingFlag.XOR_ENCRYPT_DATA`. -/
def XOR_ENCRYPT_DATA : Nat := 0x10000000

/-- `Version.is_valid`: membership in the three known version constants. -/
def versionIsValid (v : Nat) : Prop :=
  v = 0x00010000 ∨ v = 0x00020001 ∨ v = 0x00020002

instance (v : Nat) : Decidable (versionIsValid v) := by
  unfold versionIsValid; infer_instance

/-- The decoded EOT container, mirroring the attributes `EOTFile._populate`
assigns.  Strings are modelled as lists of code points; `root_string` is the
list of NUL-separated segments.  `root_string_checksum` and `eudc_code_page`
use `Int` because the Python code initialises them with the sentinel `-1`. -/
structure EOTRecord where
  eot_size : Nat
  version : Nat
  flags : Nat
  font_panose : List Nat
  charset : Nat
  italic : Nat
  weight : Nat
  fs_type : Nat
  unicode_range1 : Nat
  unicode_range2 : Nat
  unicode_range3 : Nat
  unicode_range4 : Nat
  code_page_range1 : Nat
  code_page_range2 : Nat
  check_sum_adjustment : Nat
  family_name : List Nat
  style_name : List Nat
  version_name : List Nat
  full_name : List Nat
  root_string : List (List Nat)
  root_string_checksum : Int
  eudc_code_page : Int
  signature : List Nat
  eudc_flags : Nat
  eudc_font_data : List Nat
  font_data : List Nat
deriving DecidableEq, Repr

/-- `StructHelper._decode_utf16` applied inside the decoder: decode the
bytes, raising `UnicodeDecodeError` (`invalidText`) on failure. -/
def decodeUtf16 (bs : List Nat) : Parser (List Nat) :=
  match utf16leDecode bs with
  | some s => Parser.pure s
  | none => Parser.throw .invalidText

/-- `EOTFile._skip_over_padding`: read a u16 and require it to be zero. -/
def skipOverPadding (i : Nat) : Parser Unit := do
  let padding ← getUnsignedShort
  if padding ≠ 0 then Parser.throw (.badPadding i) else Parser.pure ()

/-- `EOTFile._populate`, translated statement by statement.  The
`for i in range(1, 5)` loop over the reserved fields is unrolled.  The
version-gated sections compute the values that the Python code assigns by
mutating the defaults set just before the gates. -/
def populate : Parser EOTRecord := do
  let eot_size ← getUnsignedLong
  let font_data_size ← getUnsignedLong
  let version ← getUnsignedLong
  let _ ← (if ¬ versionIsValid version then Parser.throw .unknownVersion else Parser.pure ())
  let flags ← getUnsignedLong
  let font_panose ← getBytes 10
  let charsetBytes ← getBytes 1
  let charset := charsetBytes.headD 0
  let italicBytes ← getBytes 1
  let italic := italicBytes.headD 0
  let weight ← getUnsignedLong
  let fs_type ← getUnsignedShort
  let magic_number ← getUnsignedShort
  let _ ← (if magic_number ≠ MAGIC_NUMBER then Parser.throw .badMagic else Parser.pure ())
  let unicode_range1 ← getUnsignedLong
  let unicode_range2 ← getUnsignedLong
  let unicode_range3 ← getUnsignedLong
  let unicode_range4 ← getUnsignedLong
  let code_page_range1 ← getUnsignedLong
  let code_page_range2 ← getUnsignedLong
  let check_sum_adjustment ← getUnsignedLong
  let reserved1 ← getUnsignedLong
  let _ ← (if reserved1 ≠ 0 then Parser.throw (.nonZeroReserved 1) else Parser.pure ())
  let reserved2 ← getUnsignedLong
  let _ ← (if reserved2 ≠ 0 then Parser.throw (.nonZeroReserved 2) else Parser.pure ())
  let reserved3 ← getUnsignedLong
  let _ ← (if reserved3 ≠ 0 then Parser.throw (.nonZeroReserved 3) else Parser.pure ())
  let reserved4 ← getUnsignedLong
  let _ ← (if reserved4 ≠ 0 then Parser.throw (.nonZeroReserved 4) else Parser.pure ())
  let _ ← skipOverPadding 1
  let family_name_size ← getUnsignedShort
  let familyBytes ← getBytes family_name_size
  let family_name ← decodeUtf16 familyBytes
  let _ ← skipOverPadding 2
  let style_name_size ← getUnsignedShort
  let styleBytes ← getBytes style_name_size
  let style_name ← decodeUtf16 styleBytes
  let _ ← skipOverPadding 3
  let version_name_size ← getUnsignedShort
  let versionBytes ← getBytes version_name_size
  let version_name ← decodeUtf16 versionBytes
  let _ ← skipOverPadding 4
  let full_name_size ← getUnsignedShort
  let fullBytes ← getBytes full_name_size
  let full_name ← decodeUtf16 fullBytes
  let root_string ←
    (if 0x00010000 < version then do
      let _ ← skipOverPadding 5
      let root_string_size ← getUnsignedShort
      let rootBytes ← getBytes root_string_size
      let rootText ← decodeUtf16 rootBytes
      Parser.pure (splitOnZero rootText)
    else Parser.pure ([] : List (List Nat)))
  let sectB ←
    (if 0x00020001 < version then do
      let root_string_checksum ← getUnsignedLong
      let eudc_code_page ← getUnsignedLong
      let _ ← skipOverPadding 6
      let signature_size ← getUnsignedShort
      let _ ← (if signature_size ≠ 0 then Parser.throw .unexpectedSignature else Parser.pure ())
      let sigBytes ← getBytes signature_size
      let signature ← decodeUtf16 sigBytes
      let eudc_flags ← getUnsignedLong
      let eudc_font_size ← getUnsignedLong
      let eudc_font_data ← getBytes eudc_font_size
      Parser.pure ((root_string_checksum : Int), (eudc_code_page : Int),
        signature, eudc_flags, eudc_font_data)
    else Parser.pure ((-1 : Int), (-1 : Int), ([] : List Nat), (0 : Nat), ([] : List Nat)))
  let font_data ← getBytes font_data_size
  Parser.pure
    { eot_size := eot_size
      version := version
      flags := flags
      font_panose := font_panose
      charset := charset
      italic := italic
      weight := weight
      fs_type := fs_type
      unicode_range1 := unicode_range1
      unicode_range2 := unicode_range2
      unicode_range3 := unicode_range3
      unicode_range4 := unicode_range4
      code_page_range1 := code_page_range1
      code_page_range2 := code_page_range2
      check_sum_adjustment := check_sum_adjustment
      family_name := family_name
      style_name := style_name
      version_name := version_name
      full_name := full_name
      root_string := root_string
      root_string_checksum := sectB.1
      eudc_code_page := sectB.2.1
      signature := sectB.2.2.1
      eudc_flags := sectB.2.2.2.1
      eudc_font_data := sectB.2.2.2.2
      font_data := font_data }

/-- One iteration of the flag loop at the end of `EOTFile.__init__`:
the MicroType Express check comes before the XOR encryption check. -/
def checkFlag (flag : Nat) : Except Err Unit :=
  if flag &&& TT_COMPRESSED = TT_COMPRESSED then .error .unsupportedCompression
  else if flag &&& XOR_ENCRYPT_DATA = XOR_ENCRYPT_DATA then .error .unsupportedEncryption
  else .ok ()

/-- `EOTFile.__init__` on an in-memory byte buffer: run `_populate` from
offset 0, then check the top-level flags followed by the EUDC flags. -/
def EOTFile (data : List Nat) : Except Err EOTRecord :=
  match populate data 0 with
  | .error e => .error e
  | .ok x =>
    match checkFlag x.1.flags with
    | .error e => .error e
    | .ok _ =>
      match checkFlag x.1.eudc_flags with
      | .error e => .error e
      | .ok _ => .ok x.1

/-! ## An encoder for well-formed containers

To state claims that quantify over "valid containers" we build containers
from their field values.  `encode` lays out the wire format of section 6 of
the spec (the same order `_populate` reads); `mkRecord` is the record that
decoding such a container yields. -/

/-- Little-endian encoding of an unsigned 16-bit value. -/
def encU16 (v : Nat) : List Nat := [v % 256, v / 256 % 256]

/-- Little-endian encoding of an unsigned 32-bit value. -/
def encU32 (v : Nat) : List Nat := [v % 256, v / 256 % 256, v / 65536 % 256, v / 16777216 % 256]

/-- The field values of a container.  Name and data fields hold the raw
bytes written to the wire; sizes are taken from their lengths.  The
reserved fields are written as zero and the signature size as its only
valid value 0, while the padding markers are free so that invalid-padding
containers are expressible. -/
structure EOTFields where
  eotSize : Nat
  version : Nat
  flags : Nat
  fontPanose : List Nat
  charset : Nat
  italic : Nat
  weight : Nat
  fsType : Nat
  unicodeRange1 : Nat
  unicodeRange2 : Nat
  unicodeRange3 : Nat
  unicodeRange4 : Nat
  codePageRange1 : Nat
  codePageRange2 : Nat
  checkSumAdjustment : Nat
  padding1 : Nat
  padding2 : Nat
  padding3 : Nat
  padding4 : Nat
  padding5 : Nat
  padding6 : Nat
  familyName : List Nat
  styleName : List Nat
  versionName : List Nat
  fullName : List Nat
  rootString : List Nat
  rootStringChecksum : Nat
  eudcCodePage : Nat
  eudcFlags : Nat
  eudcFontData : List Nat
  fontData : List Nat
deriving DecidableEq, Repr

/-- Serialize the container (wire format of section 6, little-endian).
The version-gated sections are emitted exactly when `_populate` would read
them.  Written right-nested so proofs can peel one field at a time. -/
def encode (f : EOTFields) : List Nat :=
  encU32 f.eotSize ++
  (encU32 f.fontData.length ++
  (encU32 f.version ++
  (encU32 f.flags ++
  (f.fontPanose ++
  ([f.charset] ++
  ([f.italic] ++
  (encU32 f.weight ++
  (encU16 f.fsType ++
  (encU16 MAGIC_NUMBER ++
  (encU32 f.unicodeRange1 ++
  (encU32 f.unicodeRange2 ++
  (encU32 f.unicodeRange3 ++
  (encU32 f.unicodeRange4 ++
  (encU32 f.codePageRange1 ++
  (encU32 f.codePageRange2 ++
  (encU32 f.checkSumAdjustment ++
  (encU32 0 ++
  (encU32 0 ++
  (encU32 0 ++
  (encU32 0 ++
  (encU16 f.padding1 ++
  (encU16 f.familyName.length ++
  (f.familyName ++
  (encU16 f.padding2 ++
  (encU16 f.styleName.length ++
  (f.styleName ++
  (encU16 f.padding3 ++
  (encU16 f.versionName.length ++
  (f.versionName ++
  (encU16 f.padding4 ++
  (encU16 f.fullName.length ++
  (f.fullName ++
  ((if 0x00010000 < f.version then
      encU16 f.padding5 ++ (encU16 f.rootString.length ++ f.rootString)
    else []) ++
  ((if 0x00020001 < f.version then
      encU32 f.rootStringChecksum ++ (encU32 f.eudcCodePage ++ (encU16 f.padding6 ++
        (encU16 0 ++ (encU32 f.eudcFlags ++ (encU32 f.eudcFontData.length ++ f.eudcFontData)))))
    else []) ++
  (f.fontData ++ ([] : List Nat))))))))))))))))))))))))))))))))))))

/-- The record that decoding `encode f` produces (for a well-formed `f`
with zero padding markers): every header field is stored as read, the name
fields hold the decoded text, and the version-gated fields hold either the
decoded section or the sentinel defaults. -/
def mkRecord (f : EOTFields) : EOTRecord where
  eot_size := f.eotSize
  version := f.version
  flags := f.flags
  font_panose := f.fontPanose
  charset := f.charset
  italic := f.italic
  weight := f.weight
  fs_type := f.fsType
  unicode_range1 := f.unicodeRange1
  unicode_range2 := f.unicodeRange2
  unicode_range3 := f.unicodeRange3
  unicode_range4 := f.unicodeRange4
  code_page_range1 := f.codePageRange1
  code_page_range2 := f.codePageRange2
  check_sum_adjustment := f.checkSumAdjustment
  family_name := (utf16leDecode f.familyName).getD []
  style_name := (utf16leDecode f.styleName).getD []
  version_name := (utf16leDecode f.versionName).getD []
  full_name := (utf16leDecode f.fullName).getD []
  root_string :=
    if 0x00010000 < f.version then splitOnZero ((utf16leDecode f.rootString).getD []) else []
  root_string_checksum := if 0x00020001 < f.version then (f.rootStringChecksum : Int) else -1
  eudc_code_page := if 0x00020001 < f.version then (f.eudcCodePage : Int) else -1
  signature := []
  eudc_flags := if 0x00020001 < f.version then f.eudcFlags else 0
  eudc_font_data := if 0x00020001 < f.version then f.eudcFontData else []
  font_data := f.fontData

/-- Well-formedness of the field values: a known version, every numeric
field within its wire width, a 10-byte PANOSE, sizes that fit their length
prefix, and decodable text fields.  The padding markers are only bounded,
not forced to zero. -/
def WF (f : EOTFields) : Prop :=
  versionIsValid f.version ∧
  f.eotSize < 4294967296 ∧
  f.flags < 4294967296 ∧
  f.fontPanose.length = 10 ∧
  f.weight < 4294967296 ∧
  f.fsType < 65536 ∧
  f.unicodeRange1 < 4294967296 ∧
  f.unicodeRange2 < 4294967296 ∧
  f.unicodeRange3 < 4294967296 ∧
  f.unicodeRange4 < 4294967296 ∧
  f.codePageRange1 < 4294967296 ∧
  f.codePageRange2 < 4294967296 ∧
  f.checkSumAdjustment < 4294967296 ∧
  f.padding1 < 65536 ∧
  f.padding2 < 65536 ∧
  f.padding3 < 65536 ∧
  f.padding4 < 65536 ∧
  f.padding5 < 65536 ∧
  f.padding6 < 65536 ∧
  f.familyName.length < 65536 ∧ (utf16leDecode f.familyName).isSome ∧
  f.styleName.length < 65536 ∧ (utf16leDecode f.styleName).isSome ∧
  f.versionName.length < 65536 ∧ (utf16leDecode f.versionName).isSome ∧
  f.fullName.length < 65536 ∧ (utf16leDecode f.fullName).isSome ∧
  f.rootString.length < 65536 ∧ (utf16leDecode f.rootString).isSome ∧
  f.rootStringChecksum < 4294967296 ∧
  f.eudcCodePage < 4294967296 ∧
  f.eudcFlags < 4294967296 ∧
  f.eudcFontData.length < 4294967296 ∧
  f.fontData.length < 4294967296

instance (f : EOTFields) : Decidable (WF f) := by
  unfold WF; infer_instance

/-- A concrete well-formed version-0x00010000 container. -/
def sampleFields1 : EOTFields where
  eotSize := 9999
  version := 0x00010000
  flags := 0
  fontPanose := [2, 0, 5, 9, 0, 0, 0, 0, 0, 0]
  charset := 1
  italic := 0
  weight := 400
  fsType := 0
  unicodeRange1 := 3
  unicodeRange2 := 0
  unicodeRange3 := 0
  unicodeRange4 := 0
  codePageRange1 := 1
  codePageRange2 := 0
  checkSumAdjustment := 49374
  padding1 := 0
  padding2 := 0
  padding3 := 0
  padding4 := 0
  padding5 := 0
  padding6 := 0
  familyName := [77, 0]
  styleName := []
  versionName := []
  fullName := []
  rootString := []
  rootStringChecksum := 0
  eudcCodePage := 0
  eudcFlags := 0
  eudcFontData := []
  fontData := [7, 9]

def sample1Data : List Nat := encode sampleFields1

def sample1Rec : EOTRecord := mkRecord sampleFields1

/-- A concrete well-formed version-0x00020001 container with an empty
(but present) root-string section. -/
def sampleFields2 : EOTFields :=
  { sampleFields1 with version := 0x00020001 }

def sample2Data : List Nat := encode sampleFields2

/-- A concrete well-formed version-0x00020002 container whose root-string
bytes are the UTF-16-LE encoding of `"a\u0000b\u0000"`. -/
def sampleFields3 : EOTFields :=
  { sampleFields1 with
      version := 0x00020002
      rootString := [0x61, 0, 0, 0, 0x62, 0, 0, 0]
      rootStringChecksum := 5
      eudcCodePage := 1252
      eudcFontData := [1, 2, 3] }

def sample3Data : List Nat := encode sampleFields3

/-- The padding marker fields by index. -/
def paddingVal (f : EOTFields) : Nat → Nat
  | 1 => f.padding1
  | 2 => f.padding2
  | 3 => f.padding3
  | 4 => f.padding4
  | 5 => f.padding5
  | 6 => f.padding6
  | _ => 0

/-- `sampleFields1` with the TrueType-compressed processing flag set. -/
def sampleFieldsTT : EOTFields := { sampleFields1 with flags := 0x00000004 }

def sampleTTData : List Nat := encode sampleFieldsTT

/-- `sampleFields1` with the XOR-encryption processing flag set. -/
def sampleFieldsXOR : EOTFields := { sampleFields1 with flags := 0x10000000 }

def sampleXORData : List Nat := encode sampleFieldsXOR

/-- `sampleFields1` with a non-zero second padding marker. -/
def sampleFieldsPad2 : EOTFields := { sampleFields1 with padding2 := 7 }

def samplePad2Data : List Nat := encode sampleFieldsPad2

/-- A 36-byte buffer with a valid version field and a zero magic field. -/
def badMagicData : List Nat := List.replicate 8 0 ++ [0, 0, 1, 0] ++ List.replicate 24 0

/-- `Good p`: a successful run of `p` consumes a region `[off, off')` of
the buffer, only depends on the buffer up to `off'`, and truncating the
buffer inside the consumed region turns the run into a `truncated`
failure. -/
def Good {α : Type} (p : Parser α) : Prop :=
  ∀ data off a off', p data off = .ok (a, off') →
    off ≤ off' ∧
    (off ≤ data.length → off' ≤ data.length) ∧
    (∀ data' : List Nat, data'.take off' = data.take off' → p data' off = .ok (a, off')) ∧
    (∀ t, off ≤ t → t < off' → p (data.take t) off = .error .truncated)

deriving instance DecidableEq for Except

/-! ## Basic evaluation lemmas for the parser monad -/

theorem Parser.bind_eq {α β : Type} (p : Parser α) (f : α → Parser β) (data : List Nat) (off : Nat) :
    (p >>= f) data off =
      match p data off with
      | .ok x => f x.1 data x.2
      | .error e => .error e := rfl

theorem Parser.pure_eq {α : Type} (a : α) (data : List Nat) (off : Nat) :
    (Parser.pure a : Parser α) data off = .ok (a, off) := rfl

theorem Parser.throw_eq {α : Type} (e : Err) (data : List Nat) (off : Nat) :
    (Parser.throw e : Parser α) data off = .error e := rfl

theorem getUnsignedLong_ok {data : List Nat} {off : Nat} (h : off + 4 ≤ data.length) :
    getUnsignedLong data off = .ok (u32At data off, off + 4) := if_pos h

theorem getUnsignedShort_ok {data : List Nat} {off : Nat} (h : off + 2 ≤ data.length) :
    getUnsignedShort data off = .ok (u16At data off, off + 2) := if_pos h

theorem getBytes_ok {data : List Nat} {off n : Nat} (h : off + n ≤ data.length) :
    getBytes n data off = .ok ((data.drop off).take n, off + n) := if_pos h

/-! ## Reads are determined by the consumed region of the buffer

`Good p` packages the facts that a successful run of `p` consumes a
region `[off, off')` inside the buffer, that the run only depends on the
buffer up to `off'`, and that truncating the buffer anywhere inside the
consumed region turns the run into a `truncated` failure. -/

theorem take_eq_len_ge {x y : List Nat} {n : Nat} (h : x.take n = y.take n)
    (hy : n ≤ y.length) : n ≤ x.length := by
  have h2 := congrArg List.length h
  rw [List.length_take, List.length_take, min_eq_left hy] at h2
  exact inf_eq_left.mp h2

theorem take_eq_seg_eq {x y : List Nat} {off n : Nat}
    (h : x.take (off + n) = y.take (off + n)) :
    (x.drop off).take n = (y.drop off).take n := by
  have h2 := congrArg (List.drop off) h
  rwa [List.drop_take, List.drop_take, Nat.add_sub_cancel_left] at h2

theorem good_pure {α : Type} (a : α) : Good (Parser.pure a) := by
  intro data off b off' h
  cases h
  exact ⟨le_refl _, fun h => h, fun _ _ => rfl, fun t h1 h2 => absurd h1 (by omega)⟩

theorem good_throw {α : Type} (e : Err) : Good (Parser.throw e : Parser α) := by
  intro data off b off' h
  cases h

theorem good_bind {α β : Type} {p : Parser α} {f : α → Parser β}
    (hp : Good p) (hf : ∀ a, Good (f a)) : Good (p >>= f) := by
  intro data off b off' h
  rw [Parser.bind_eq] at h
  cases hpp : p data off with
  | error e => rw [hpp] at h; cases h
  | ok x =>
    obtain ⟨a, m⟩ := x
    rw [hpp] at h
    obtain ⟨h1, h2, h3, h4⟩ := hp data off a m hpp
    obtain ⟨g1, g2, g3, g4⟩ := hf a data m b off' h
    refine ⟨le_trans h1 g1, fun hl => g2 (h2 hl), ?_, ?_⟩
    · intro data' ht
      have hm : data'.take m = data.take m := by
        have h5 := congrArg (List.take m) ht
        rwa [List.take_take, List.take_take, min_eq_left g1] at h5
      rw [Parser.bind_eq, h3 data' hm]
      exact g3 data' ht
    · intro t ht1 ht2
      rw [Parser.bind_eq]
      by_cases hc : t < m
      · rw [h4 t ht1 hc]
      · push_neg at hc
        have hmt : (data.take t).take m = data.take m := by
          rw [List.take_take, min_eq_left hc]
        rw [h3 (data.take t) hmt]
        exact g4 t hc ht2

theorem good_getBytes (n : Nat) : Good (getBytes n) := by
  intro data off a off' h
  unfold getBytes at h
  by_cases hle : off + n ≤ data.length
  · rw [if_pos hle] at h
    rw [Except.ok.injEq, Prod.mk.injEq] at h
    obtain ⟨h1, h2⟩ := h
    subst h1; subst h2
    refine ⟨by omega, fun _ => hle, ?_, ?_⟩
    · intro data' ht
      have hlen : off + n ≤ data'.length := take_eq_len_ge ht hle
      unfold getBytes
      rw [if_pos hlen, take_eq_seg_eq ht]
    · intro t ht1 ht2
      have hlt : (data.take t).length ≤ t := by
        rw [List.length_take]; exact inf_le_left
      unfold getBytes
      rw [if_neg (by omega)]
  · rw [if_neg hle] at h; cases h

theorem good_getUnsignedLong : Good getUnsignedLong := by
  intro data off a off' h
  unfold getUnsignedLong at h
  by_cases hle : off + 4 ≤ data.length
  · rw [if_pos hle] at h
    rw [Except.ok.injEq, Prod.mk.injEq] at h
    obtain ⟨h1, h2⟩ := h
    subst h1; subst h2
    refine ⟨by omega, fun _ => hle, ?_, ?_⟩
    · intro data' ht
      have hlen : off + 4 ≤ data'.length := take_eq_len_ge ht hle
      unfold getUnsignedLong
      rw [if_pos hlen]
      unfold u32At
      rw [take_eq_seg_eq ht]
    · intro t ht1 ht2
      have hlt : (data.take t).length ≤ t := by
        rw [List.length_take]; exact inf_le_left
      unfold getUnsignedLong
      rw [if_neg (by omega)]
  · rw [if_neg hle] at h; cases h

theorem good_getUnsignedShort : Good getUnsignedShort := by
  intro data off a off' h
  unfold getUnsignedShort at h
  by_cases hle : off + 2 ≤ data.length
  · rw [if_pos hle] at h
    rw [Except.ok.injEq, Prod.mk.injEq] at h
    obtain ⟨h1, h2⟩ := h
    subst h1; subst h2
    refine ⟨by omega, fun _ => hle, ?_, ?_⟩
    · intro data' ht
      have hlen : off + 2 ≤ data'.length := take_eq_len_ge ht hle
      unfold getUnsignedShort
      rw [if_pos hlen]
      unfold u16At
      rw [take_eq_seg_eq ht]
    · intro t ht1 ht2
      have hlt : (data.take t).length ≤ t := by
        rw [List.length_take]; exact inf_le_left
      unfold getUnsignedShort
      rw [if_neg (by omega)]
  · rw [if_neg hle] at h; cases h

theorem good_ite {α : Type} (c : Prop) [Decidable c] {p q : Parser α}
    (hp : Good p) (hq : Good q) : Good (if c then p else q) := by
  by_cases hc : c
  · rwa [if_pos hc]
  · rwa [if_neg hc]

theorem good_decodeUtf16 (bs : List Nat) : Good (decodeUtf16 bs) := by
  unfold decodeUtf16
  cases utf16leDecode bs
  · exact good_throw _
  · exact good_pure _

theorem good_skipOverPadding (i : Nat) : Good (skipOverPadding i) := by
  unfold skipOverPadding
  exact good_bind good_getUnsignedShort
    (fun padding => good_ite _ (good_throw _) (good_pure _))

/-- The whole decoder is a `Good` parser: its run is determined by the
consumed region, and truncation inside that region yields `truncated`. -/
theorem good_populate : Good populate :=
  good_bind good_getUnsignedLong fun _eot_size =>
  good_bind good_getUnsignedLong fun _font_data_size =>
  good_bind good_getUnsignedLong fun _version =>
  good_bind (good_ite _ (good_throw _) (good_pure _)) fun _ =>
  good_bind good_getUnsignedLong fun _flags =>
  good_bind (good_getBytes 10) fun _font_panose =>
  good_bind (good_getBytes 1) fun _charsetBytes =>
  good_bind (good_getBytes 1) fun _italicBytes =>
  good_bind good_getUnsignedLong fun _weight =>
  good_bind good_getUnsignedShort fun _fs_type =>
  good_bind good_getUnsignedShort fun _magic =>
  good_bind (good_ite _ (good_throw _) (good_pure _)) fun _ =>
  good_bind good_getUnsignedLong fun _u1 =>
  good_bind good_getUnsignedLong fun _u2 =>
  good_bind good_getUnsignedLong fun _u3 =>
  good_bind good_getUnsignedLong fun _u4 =>
  good_bind good_getUnsignedLong fun _c1 =>
  good_bind good_getUnsignedLong fun _c2 =>
  good_bind good_getUnsignedLong fun _csa =>
  good_bind good_getUnsignedLong fun _r1 =>
  good_bind (good_ite _ (good_throw _) (good_pure _)) fun _ =>
  good_bind good_getUnsignedLong fun _r2 =>
  good_bind (good_ite _ (good_throw _) (good_pure _)) fun _ =>
  good_bind good_getUnsignedLong fun _r3 =>
  good_bind (good_ite _ (good_throw _) (good_pure _)) fun _ =>
  good_bind good_getUnsignedLong fun _r4 =>
  good_bind (good_ite _ (good_throw _) (good_pure _)) fun _ =>
  good_bind (good_skipOverPadding 1) fun _ =>
  good_bind good_getUnsignedShort fun _fns =>
  good_bind (good_getBytes _) fun _fnb =>
  good_bind (good_decodeUtf16 _) fun _fn =>
  good_bind (good_skipOverPadding 2) fun _ =>
  good_bind good_getUnsignedShort fun _sns =>
  good_bind (good_getBytes _) fun _snb =>
  good_bind (good_decodeUtf16 _) fun _sn =>
  good_bind (good_skipOverPadding 3) fun _ =>
  good_bind good_getUnsignedShort fun _vns =>
  good_bind (good_getBytes _) fun _vnb =>
  good_bind (good_decodeUtf16 _) fun _vn =>
  good_bind (good_skipOverPadding 4) fun _ =>
  good_bind good_getUnsignedShort fun _fls =>
  good_bind (good_getBytes _) fun _flb =>
  good_bind (good_decodeUtf16 _) fun _fl =>
  good_bind
    (good_ite _
      (good_bind (good_skipOverPadding 5) fun _ =>
       good_bind good_getUnsignedShort fun _rss =>
       good_bind (good_getBytes _) fun _rsb =>
       good_bind (good_decodeUtf16 _) fun _rst =>
       good_pure _)
      (good_pure _)) fun _root_string =>
  good_bind
    (good_ite _
      (good_bind good_getUnsignedLong fun _rsc =>
       good_bind good_getUnsignedLong fun _ecp =>
       good_bind (good_skipOverPadding 6) fun _ =>
       good_bind good_getUnsignedShort fun _ss =>
       good_bind (good_ite _ (good_throw _) (good_pure _)) fun _ =>
       good_bind (good_getBytes _) fun _sb =>
       good_bind (good_decodeUtf16 _) fun _sg =>
       good_bind good_getUnsignedLong fun _ef =>
       good_bind good_getUnsignedLong fun _efs =>
       good_bind (good_getBytes _) fun _efd =>
       good_pure _)
      (good_pure _)) fun _sectB =>
  good_bind (good_getBytes _) fun _font_data =>
  good_pure _

/-! ## Evaluating the decoder on serialized containers -/

theorem leVal_encU16 {v : Nat} (h : v < 65536) : leVal (encU16 v) = v := by
  simp [encU16, leVal]; omega

theorem leVal_encU32 {v : Nat} (h : v < 4294967296) : leVal (encU32 v) = v := by
  simp [encU32, leVal]; omega

theorem getUnsignedLong_step {data rest : List Nat} {off v : Nat}
    (hd : data.drop off = encU32 v ++ rest) (hv : v < 4294967296) :
    getUnsignedLong data off = .ok (v, off + 4) ∧ data.drop (off + 4) = rest ∧
      off + 4 ≤ data.length := by
  have hle : off + 4 ≤ data.length := by
    have h2 := congrArg List.length hd
    simp [encU32] at h2
    omega
  refine ⟨?_, ?_, hle⟩
  · rw [getUnsignedLong_ok hle]
    have hval : u32At data off = v := by
      unfold u32At
      rw [hd, show (4 : Nat) = (encU32 v).length from rfl, List.take_left]
      exact leVal_encU32 hv
    rw [hval]
  · rw [show off + 4 = off + (encU32 v).length from rfl, ← List.drop_drop, hd,
      show (encU32 v).length = 4 from rfl, show (4 : Nat) = (encU32 v).length from rfl,
      List.drop_left]

theorem getUnsignedShort_step {data rest : List Nat} {off v : Nat}
    (hd : data.drop off = encU16 v ++ rest) (hv : v < 65536) :
    getUnsignedShort data off = .ok (v, off + 2) ∧ data.drop (off + 2) = rest ∧
      off + 2 ≤ data.length := by
  have hle : off + 2 ≤ data.length := by
    have h2 := congrArg List.length hd
    simp [encU16] at h2
    omega
  refine ⟨?_, ?_, hle⟩
  · rw [getUnsignedShort_ok hle]
    have hval : u16At data off = v := by
      unfold u16At
      rw [hd, show (2 : Nat) = (encU16 v).length from rfl, List.take_left]
      exact leVal_encU16 hv
    rw [hval]
  · rw [show off + 2 = off + (encU16 v).length from rfl, ← List.drop_drop, hd,
      show (encU16 v).length = 2 from rfl, show (2 : Nat) = (encU16 v).length from rfl,
      List.drop_left]

theorem getBytes_step {data bs rest : List Nat} {off n : Nat}
    (hd : data.drop off = bs ++ rest) (hn : n = bs.length) (hoff : off ≤ data.length) :
    getBytes n data off = .ok (bs, off + n) ∧ data.drop (off + n) = rest ∧
      off + n ≤ data.length := by
  subst hn
  have hle : off + bs.length ≤ data.length := by
    have h2 := congrArg List.length hd
    simp at h2
    omega
  refine ⟨?_, ?_, hle⟩
  · rw [getBytes_ok hle, hd, List.take_left]
  · rw [← List.drop_drop, hd, List.drop_left]

theorem decodeUtf16_ok {bs s : List Nat} (h : utf16leDecode bs = some s)
    (data : List Nat) (off : Nat) : decodeUtf16 bs data off = .ok (s, off) := by
  unfold decodeUtf16
  rw [h]
  rfl

theorem skipOverPadding_step {data rest : List Nat} {off p : Nat} (i : Nat)
    (hd : data.drop off = encU16 p ++ rest) (hp : p < 65536) :
    (skipOverPadding i data off =
      if p ≠ 0 then .error (.badPadding i) else .ok ((), off + 2)) ∧
    data.drop (off + 2) = rest ∧ off + 2 ≤ data.length := by
  obtain ⟨h1, h2, h3⟩ := getUnsignedShort_step hd hp
  refine ⟨?_, h2, h3⟩
  unfold skipOverPadding
  simp only [Parser.bind_eq, h1]
  by_cases hz : p = 0
  · subst hz
    simp [Parser.pure_eq]
  · simp [hz, Parser.throw_eq]


theorem getBytes_zero {data : List Nat} {off : Nat} (hoff : off ≤ data.length) :
    getBytes 0 data off = .ok ([], off) := by
  unfold getBytes
  rw [if_pos (by omega)]
  simp

set_option maxHeartbeats 3000000 in
/-- Decoding a serialized well-formed container: the decode succeeds with
the expected record when every applicable padding marker is zero, and
fails with `badPadding i` at the first applicable non-zero marker. -/
theorem populate_encode (f : EOTFields) (hwf : WF f) :
    populate (encode f) 0 =
      if f.padding1 ≠ 0 then .error (.badPadding 1)
      else if f.padding2 ≠ 0 then .error (.badPadding 2)
      else if f.padding3 ≠ 0 then .error (.badPadding 3)
      else if f.padding4 ≠ 0 then .error (.badPadding 4)
      else if 0x00010000 < f.version ∧ f.padding5 ≠ 0 then .error (.badPadding 5)
      else if 0x00020001 < f.version ∧ f.padding6 ≠ 0 then .error (.badPadding 6)
      else .ok (mkRecord f, (encode f).length) := by
  obtain ⟨hv, hes, hfl, hpan, hwt, hft, hu1, hu2, hu3, hu4, hc1, hc2, hcsa,
    hp1, hp2, hp3, hp4, hp5, hp6,
    hfnl, hfns, hsnl, hsns, hvnl, hvns, hflnl, hflns, hrsl, hrss,
    hrsc, hecp, hef, hefd, hfd⟩ := hwf
  obtain ⟨fname, hfname⟩ := Option.isSome_iff_exists.mp hfns
  obtain ⟨sname, hsname⟩ := Option.isSome_iff_exists.mp hsns
  obtain ⟨vname, hvname⟩ := Option.isSome_iff_exists.mp hvns
  obtain ⟨flname, hflname⟩ := Option.isSome_iff_exists.mp hflns
  obtain ⟨rstr, hrstr⟩ := Option.isSome_iff_exists.mp hrss
  have hvv : versionIsValid f.version := hv
  have hvlt : f.version < 4294967296 := by
    rcases hv with h | h | h <;> rw [h] <;> omega
  have hmagic : ¬ (MAGIC_NUMBER ≠ MAGIC_NUMBER) := fun h => h rfl
  have hzero : ¬ ((0 : Nat) ≠ 0) := fun h => h rfl
  have hutfnil : utf16leDecode [] = some [] := rfl
  have hd0 : (encode f).drop 0 = encode f := List.drop_zero _
  obtain ⟨e1, hd1, hb1⟩ := getUnsignedLong_step hd0 hes
  obtain ⟨e2, hd2, hb2⟩ := getUnsignedLong_step hd1 hfd
  obtain ⟨e3, hd3, hb3⟩ := getUnsignedLong_step hd2 hvlt
  obtain ⟨e4, hd4, hb4⟩ := getUnsignedLong_step hd3 hfl
  obtain ⟨e5, hd5, hb5⟩ := getBytes_step hd4 hpan.symm (by omega)
  obtain ⟨e6, hd6, hb6⟩ := getBytes_step hd5 (show (1 : Nat) = [f.charset].length from rfl) (by omega)
  obtain ⟨e7, hd7, hb7⟩ := getBytes_step hd6 (show (1 : Nat) = [f.italic].length from rfl) (by omega)
  obtain ⟨e8, hd8, hb8⟩ := getUnsignedLong_step hd7 hwt
  obtain ⟨e9, hd9, hb9⟩ := getUnsignedShort_step hd8 hft
  obtain ⟨e10, hd10, hb10⟩ := getUnsignedShort_step hd9 (by decide)
  obtain ⟨e11, hd11, hb11⟩ := getUnsignedLong_step hd10 hu1
  obtain ⟨e12, hd12, hb12⟩ := getUnsignedLong_step hd11 hu2
  obtain ⟨e13, hd13, hb13⟩ := getUnsignedLong_step hd12 hu3
  obtain ⟨e14, hd14, hb14⟩ := getUnsignedLong_step hd13 hu4
  obtain ⟨e15, hd15, hb15⟩ := getUnsignedLong_step hd14 hc1
  obtain ⟨e16, hd16, hb16⟩ := getUnsignedLong_step hd15 hc2
  obtain ⟨e17, hd17, hb17⟩ := getUnsignedLong_step hd16 hcsa
  obtain ⟨e18, hd18, hb18⟩ := getUnsignedLong_step hd17 (by omega)
  obtain ⟨e19, hd19, hb19⟩ := getUnsignedLong_step hd18 (by omega)
  obtain ⟨e20, hd20, hb20⟩ := getUnsignedLong_step hd19 (by omega)
  obtain ⟨e21, hd21, hb21⟩ := getUnsignedLong_step hd20 (by omega)
  obtain ⟨s1, hd22, hb22⟩ := skipOverPadding_step 1 hd21 hp1
  obtain ⟨e23, hd23, hb23⟩ := getUnsignedShort_step hd22 hfnl
  obtain ⟨e24, hd24, hb24⟩ := getBytes_step hd23 rfl (by omega)
  obtain ⟨s2, hd25, hb25⟩ := skipOverPadding_step 2 hd24 hp2
  obtain ⟨e26, hd26, hb26⟩ := getUnsignedShort_step hd25 hsnl
  obtain ⟨e27, hd27, hb27⟩ := getBytes_step hd26 rfl (by omega)
  obtain ⟨s3, hd28, hb28⟩ := skipOverPadding_step 3 hd27 hp3
  obtain ⟨e29, hd29, hb29⟩ := getUnsignedShort_step hd28 hvnl
  obtain ⟨e30, hd30, hb30⟩ := getBytes_step hd29 rfl (by omega)
  obtain ⟨s4, hd31, hb31⟩ := skipOverPadding_step 4 hd30 hp4
  obtain ⟨e32, hd32, hb32⟩ := getUnsignedShort_step hd31 hflnl
  obtain ⟨e33, hd33, hb33⟩ := getBytes_step hd32 rfl (by omega)
  by_cases hz1 : f.padding1 = 0
  case neg =>
    rw [if_pos hz1]
    simp only [populate, Parser.bind_eq, Parser.pure_eq, Parser.throw_eq,
      e1, e2, e3, e4, e5, e6, e7, e8, e9, e10, e11, e12, e13, e14, e15, e16, e17, e18, e19, e20, e21, s1, e23, e24, s2, e26, e27, s3, e29, e30, s4, e32, e33, hz1,
      decodeUtf16_ok hfname, decodeUtf16_ok hsname, decodeUtf16_ok hvname, decodeUtf16_ok hflname, hvv, hmagic, hzero, List.headD_cons, ne_eq, not_true, not_false_eq_true, eq_self_iff_true, ite_true, ite_false, if_true, if_false, true_and, and_true, false_and, and_false]
  rw [if_neg (fun h => h hz1)]
  by_cases hz2 : f.padding2 = 0
  case neg =>
    rw [if_pos hz2]
    simp only [populate, Parser.bind_eq, Parser.pure_eq, Parser.throw_eq,
      e1, e2, e3, e4, e5, e6, e7, e8, e9, e10, e11, e12, e13, e14, e15, e16, e17, e18, e19, e20, e21, s1, e23, e24, s2, e26, e27, s3, e29, e30, s4, e32, e33, hz2, hz1,
      decodeUtf16_ok hfname, decodeUtf16_ok hsname, decodeUtf16_ok hvname, decodeUtf16_ok hflname, hvv, hmagic, hzero, List.headD_cons, ne_eq, not_true, not_false_eq_true, eq_self_iff_true, ite_true, ite_false, if_true, if_false, true_and, and_true, false_and, and_false]
  rw [if_neg (fun h => h hz2)]
  by_cases hz3 : f.padding3 = 0
  case neg =>
    rw [if_pos hz3]
    simp only [populate, Parser.bind_eq, Parser.pure_eq, Parser.throw_eq,
      e1, e2, e3, e4, e5, e6, e7, e8, e9, e10, e11, e12, e13, e14, e15, e16, e17, e18, e19, e20, e21, s1, e23, e24, s2, e26, e27, s3, e29, e30, s4, e32, e33, hz3, hz1, hz2,
      decodeUtf16_ok hfname, decodeUtf16_ok hsname, decodeUtf16_ok hvname, decodeUtf16_ok hflname, hvv, hmagic, hzero, List.headD_cons, ne_eq, not_true, not_false_eq_true, eq_self_iff_true, ite_true, ite_false, if_true, if_false, true_and, and_true, false_and, and_false]
  rw [if_neg (fun h => h hz3)]
  by_cases hz4 : f.padding4 = 0
  case neg =>
    rw [if_pos hz4]
    simp only [populate, Parser.bind_eq, Parser.pure_eq, Parser.throw_eq,
      e1, e2, e3, e4, e5, e6, e7, e8, e9, e10, e11, e12, e13, e14, e15, e16, e17, e18, e19, e20, e21, s1, e23, e24, s2, e26, e27, s3, e29, e30, s4, e32, e33, hz4, hz1, hz2, hz3,
      decodeUtf16_ok hfname, decodeUtf16_ok hsname, decodeUtf16_ok hvname, decodeUtf16_ok hflname, hvv, hmagic, hzero, List.headD_cons, ne_eq, not_true, not_false_eq_true, eq_self_iff_true, ite_true, ite_false, if_true, if_false, true_and, and_true, false_and, and_false]
  rw [if_neg (fun h => h hz4)]
  rcases hv with hver | hver | hver
  · -- version 0x00010000: no optional sections
    have hgA : ¬ (0x00010000 < f.version) := by omega
    have hgB : ¬ (0x00020001 < f.version) := by omega
    rw [if_neg hgA, if_neg hgB] at hd33
    simp only [List.nil_append] at hd33
    obtain ⟨e34, hd34, hb34⟩ := getBytes_step hd33 rfl (by omega)
    rw [if_neg (by simp [hgA]), if_neg (by simp [hgB])]
    simp only [populate, Parser.bind_eq, Parser.pure_eq, Parser.throw_eq,
      e1, e2, e3, e4, e5, e6, e7, e8, e9, e10, e11, e12, e13, e14, e15, e16, e17, e18, e19, e20, e21, s1, e23, e24, s2, e26, e27, s3, e29, e30, s4, e32, e33, e34, hz1, hz2, hz3, hz4, hgA, hgB,
      decodeUtf16_ok hfname, decodeUtf16_ok hsname, decodeUtf16_ok hvname, decodeUtf16_ok hflname, hvv, hmagic, hzero, List.headD_cons, ne_eq, not_true, not_false_eq_true, eq_self_iff_true, ite_true, ite_false, if_true, if_false, true_and, and_true, false_and, and_false]
    rw [Except.ok.injEq, Prod.mk.injEq]
    constructor
    · simp [mkRecord, hfname, hsname, hvname, hflname, hgA, hgB]
    · simp [encode, encU32, encU16, hgA, hgB, hpan]
      omega
  · -- version 0x00020001: root-string section only
    have hgA : 0x00010000 < f.version := by omega
    have hgB : ¬ (0x00020001 < f.version) := by omega
    rw [if_pos hgA, if_neg hgB] at hd33
    simp only [List.append_assoc, List.nil_append] at hd33
    obtain ⟨s5, hd34, hb34⟩ := skipOverPadding_step 5 hd33 hp5
    obtain ⟨e35, hd35, hb35⟩ := getUnsignedShort_step hd34 hrsl
    obtain ⟨e36, hd36, hb36⟩ := getBytes_step hd35 rfl (by omega)
    obtain ⟨e37, hd37, hb37⟩ := getBytes_step hd36 rfl (by omega)
    by_cases hz5 : f.padding5 = 0
    case neg =>
      rw [if_pos (by exact ⟨hgA, hz5⟩)]
      simp only [populate, Parser.bind_eq, Parser.pure_eq, Parser.throw_eq,
        e1, e2, e3, e4, e5, e6, e7, e8, e9, e10, e11, e12, e13, e14, e15, e16, e17, e18, e19, e20, e21, s1, e23, e24, s2, e26, e27, s3, e29, e30, s4, e32, e33, s5, hz1, hz2, hz3, hz4, hz5, hgA, hgB,
        decodeUtf16_ok hfname, decodeUtf16_ok hsname, decodeUtf16_ok hvname, decodeUtf16_ok hflname, hvv, hmagic, hzero, List.headD_cons, ne_eq, not_true, not_false_eq_true, eq_self_iff_true, ite_true, ite_false, if_true, if_false, true_and, and_true, false_and, and_false]
    rw [if_neg (fun h => h.2 hz5), if_neg (by simp [hgB])]
    simp only [populate, Parser.bind_eq, Parser.pure_eq, Parser.throw_eq,
      e1, e2, e3, e4, e5, e6, e7, e8, e9, e10, e11, e12, e13, e14, e15, e16, e17, e18, e19, e20, e21, s1, e23, e24, s2, e26, e27, s3, e29, e30, s4, e32, e33, s5, e35, e36, e37, decodeUtf16_ok hrstr, hz1, hz2, hz3, hz4, hz5, hgA, hgB,
      decodeUtf16_ok hfname, decodeUtf16_ok hsname, decodeUtf16_ok hvname, decodeUtf16_ok hflname, hvv, hmagic, hzero, List.headD_cons, ne_eq, not_true, not_false_eq_true, eq_self_iff_true, ite_true, ite_false, if_true, if_false, true_and, and_true, false_and, and_false]
    rw [Except.ok.injEq, Prod.mk.injEq]
    constructor
    · simp [mkRecord, hfname, hsname, hvname, hflname, hrstr, hgA, hgB]
    · simp [encode, encU32, encU16, hgA, hgB, hpan]
      omega
  · -- version 0x00020002: root-string and EUDC sections
    have hgA : 0x00010000 < f.version := by omega
    have hgB : 0x00020001 < f.version := by omega
    rw [if_pos hgA, if_pos hgB] at hd33
    simp only [List.append_assoc, List.nil_append] at hd33
    obtain ⟨s5, hd34, hb34⟩ := skipOverPadding_step 5 hd33 hp5
    obtain ⟨e35, hd35, hb35⟩ := getUnsignedShort_step hd34 hrsl
    obtain ⟨e36, hd36, hb36⟩ := getBytes_step hd35 rfl (by omega)
    obtain ⟨e37, hd37, hb37⟩ := getUnsignedLong_step hd36 hrsc
    obtain ⟨e38, hd38, hb38⟩ := getUnsignedLong_step hd37 hecp
    obtain ⟨s6, hd39, hb39⟩ := skipOverPadding_step 6 hd38 hp6
    obtain ⟨e40, hd40, hb40⟩ := getUnsignedShort_step hd39 (by omega)
    have e41 := getBytes_zero hb40
    obtain ⟨e42, hd42, hb42⟩ := getUnsignedLong_step hd40 hef
    obtain ⟨e43, hd43, hb43⟩ := getUnsignedLong_step hd42 hefd
    obtain ⟨e44, hd44, hb44⟩ := getBytes_step hd43 rfl (by omega)
    obtain ⟨e45, hd45, hb45⟩ := getBytes_step hd44 rfl (by omega)
    by_cases hz5 : f.padding5 = 0
    case neg =>
      rw [if_pos (by exact ⟨hgA, hz5⟩)]
      simp only [populate, Parser.bind_eq, Parser.pure_eq, Parser.throw_eq,
        e1, e2, e3, e4, e5, e6, e7, e8, e9, e10, e11, e12, e13, e14, e15, e16, e17, e18, e19, e20, e21, s1, e23, e24, s2, e26, e27, s3, e29, e30, s4, e32, e33, s5, hz1, hz2, hz3, hz4, hz5, hgA, hgB,
        decodeUtf16_ok hfname, decodeUtf16_ok hsname, decodeUtf16_ok hvname, decodeUtf16_ok hflname, hvv, hmagic, hzero, List.headD_cons, ne_eq, not_true, not_false_eq_true, eq_self_iff_true, ite_true, ite_false, if_true, if_false, true_and, and_true, false_and, and_false]
    rw [if_neg (fun h => h.2 hz5)]
    by_cases hz6 : f.padding6 = 0
    case neg =>
      rw [if_pos (by exact ⟨hgB, hz6⟩)]
      simp only [populate, Parser.bind_eq, Parser.pure_eq, Parser.throw_eq,
        e1, e2, e3, e4, e5, e6, e7, e8, e9, e10, e11, e12, e13, e14, e15, e16, e17, e18, e19, e20, e21, s1, e23, e24, s2, e26, e27, s3, e29, e30, s4, e32, e33, s5, s6, e35, e36, e37, e38, decodeUtf16_ok hrstr, hz1, hz2, hz3, hz4, hz5, hz6, hgA, hgB,
        decodeUtf16_ok hfname, decodeUtf16_ok hsname, decodeUtf16_ok hvname, decodeUtf16_ok hflname, hvv, hmagic, hzero, List.headD_cons, ne_eq, not_true, not_false_eq_true, eq_self_iff_true, ite_true, ite_false, if_true, if_false, true_and, and_true, false_and, and_false]
    rw [if_neg (fun h => h.2 hz6)]
    simp only [populate, Parser.bind_eq, Parser.pure_eq, Parser.throw_eq,
      e1, e2, e3, e4, e5, e6, e7, e8, e9, e10, e11, e12, e13, e14, e15, e16, e17, e18, e19, e20, e21, s1, e23, e24, s2, e26, e27, s3, e29, e30, s4, e32, e33, s5, s6, e35, e36, e37, e38, e40, e41, e42, e43, e44, e45, decodeUtf16_ok hrstr, decodeUtf16_ok hutfnil, hz1, hz2, hz3, hz4, hz5, hz6, hgA, hgB,
      decodeUtf16_ok hfname, decodeUtf16_ok hsname, decodeUtf16_ok hvname, decodeUtf16_ok hflname, hvv, hmagic, hzero, List.headD_cons, ne_eq, not_true, not_false_eq_true, eq_self_iff_true, ite_true, ite_false, if_true, if_false, true_and, and_true, false_and, and_false]
    rw [Except.ok.injEq, Prod.mk.injEq]
    constructor
    · simp [mkRecord, hfname, hsname, hvname, hflname, hrstr, hgA, hgB]
    · simp [encode, encU32, encU16, hgA, hgB, hpan]
      omega

/-! ## Inversion lemmas -/

theorem Parser.bind_inv {α β : Type} {p : Parser α} {f : α → Parser β} {data : List Nat}
    {off : Nat} {y : β × Nat} (h : (p >>= f) data off = .ok y) :
    ∃ a m, p data off = .ok (a, m) ∧ f a data m = .ok y := by
  rw [Parser.bind_eq] at h
  cases hp : p data off with
  | error e => rw [hp] at h; cases h
  | ok x =>
    obtain ⟨a, m⟩ := x
    rw [hp] at h
    exact ⟨a, m, rfl, h⟩

/-- Version gating of the optional sections: whatever buffer a successful
decode consumed, if the stored version does not exceed a gate constant the
fields of the corresponding section keep their sentinel defaults. -/
theorem populate_version_gating {data : List Nat} {r : EOTRecord} {n : Nat}
    (h : populate data 0 = .ok (r, n)) :
    (¬ 0x00010000 < r.version → r.root_string = []) ∧
    (¬ 0x00020001 < r.version →
      r.root_string_checksum = -1 ∧ r.eudc_code_page = -1 ∧ r.signature = [] ∧
      r.eudc_flags = 0 ∧ r.eudc_font_data = []) := by
  unfold populate at h
  obtain ⟨eot_size, _, _, h⟩ := Parser.bind_inv h
  obtain ⟨font_data_size, _, _, h⟩ := Parser.bind_inv h
  obtain ⟨version, _, _, h⟩ := Parser.bind_inv h
  obtain ⟨_, _, _, h⟩ := Parser.bind_inv h
  obtain ⟨flags, _, _, h⟩ := Parser.bind_inv h
  obtain ⟨font_panose, _, _, h⟩ := Parser.bind_inv h
  obtain ⟨charsetBytes, _, _, h⟩ := Parser.bind_inv h
  obtain ⟨italicBytes, _, _, h⟩ := Parser.bind_inv h
  obtain ⟨weight, _, _, h⟩ := Parser.bind_inv h
  obtain ⟨fs_type, _, _, h⟩ := Parser.bind_inv h
  obtain ⟨magic_number, _, _, h⟩ := Parser.bind_inv h
  obtain ⟨_, _, _, h⟩ := Parser.bind_inv h
  obtain ⟨u1, _, _, h⟩ := Parser.bind_inv h
  obtain ⟨u2, _, _, h⟩ := Parser.bind_inv h
  obtain ⟨u3, _, _, h⟩ := Parser.bind_inv h
  obtain ⟨u4, _, _, h⟩ := Parser.bind_inv h
  obtain ⟨cp1, _, _, h⟩ := Parser.bind_inv h
  obtain ⟨cp2, _, _, h⟩ := Parser.bind_inv h
  obtain ⟨csa, _, _, h⟩ := Parser.bind_inv h
  obtain ⟨res1, _, _, h⟩ := Parser.bind_inv h
  obtain ⟨_, _, _, h⟩ := Parser.bind_inv h
  obtain ⟨res2, _, _, h⟩ := Parser.bind_inv h
  obtain ⟨_, _, _, h⟩ := Parser.bind_inv h
  obtain ⟨res3, _, _, h⟩ := Parser.bind_inv h
  obtain ⟨_, _, _, h⟩ := Parser.bind_inv h
  obtain ⟨res4, _, _, h⟩ := Parser.bind_inv h
  obtain ⟨_, _, _, h⟩ := Parser.bind_inv h
  obtain ⟨_, _, _, h⟩ := Parser.bind_inv h
  obtain ⟨family_name_size, _, _, h⟩ := Parser.bind_inv h
  obtain ⟨familyBytes, _, _, h⟩ := Parser.bind_inv h
  obtain ⟨family_name, _, _, h⟩ := Parser.bind_inv h
  obtain ⟨_, _, _, h⟩ := Parser.bind_inv h
  obtain ⟨style_name_size, _, _, h⟩ := Parser.bind_inv h
  obtain ⟨styleBytes, _, _, h⟩ := Parser.bind_inv h
  obtain ⟨style_name, _, _, h⟩ := Parser.bind_inv h
  obtain ⟨_, _, _, h⟩ := Parser.bind_inv h
  obtain ⟨version_name_size, _, _, h⟩ := Parser.bind_inv h
  obtain ⟨versionBytes, _, _, h⟩ := Parser.bind_inv h
  obtain ⟨version_name, _, _, h⟩ := Parser.bind_inv h
  obtain ⟨_, _, _, h⟩ := Parser.bind_inv h
  obtain ⟨full_name_size, _, _, h⟩ := Parser.bind_inv h
  obtain ⟨fullBytes, _, _, h⟩ := Parser.bind_inv h
  obtain ⟨full_name, _, _, h⟩ := Parser.bind_inv h
  obtain ⟨root_string, _, hA, h⟩ := Parser.bind_inv h
  obtain ⟨sectB, _, hB, h⟩ := Parser.bind_inv h
  obtain ⟨font_data, _, _, h⟩ := Parser.bind_inv h
  rw [Parser.pure_eq, Except.ok.injEq, Prod.mk.injEq] at h
  obtain ⟨hrec, -⟩ := h
  subst hrec
  constructor
  · intro hle
    simp only at hle ⊢
    rw [if_neg hle] at hA
    rw [Parser.pure_eq, Except.ok.injEq, Prod.mk.injEq] at hA
    exact hA.1.symm
  · intro hle
    simp only at hle ⊢
    rw [if_neg hle] at hB
    rw [Parser.pure_eq, Except.ok.injEq, Prod.mk.injEq] at hB
    rw [← hB.1]
    exact ⟨rfl, rfl, rfl, rfl, rfl⟩

/-! ## Shared helpers about the top-level decode -/

theorem EOTFile_ok_inv {data : List Nat} {r : EOTRecord} (h : EOTFile data = .ok r) :
    ∃ n, populate data 0 = .ok (r, n) ∧ checkFlag r.flags = .ok () ∧
      checkFlag r.eudc_flags = .ok () := by
  unfold EOTFile at h
  split at h
  · cases h
  · rename_i x hp
    split at h
    · cases h
    · rename_i u hc1
      split at h
      · cases h
      · rename_i u2 hc2
        cases h
        exact ⟨x.2, hp, hc1, hc2⟩

theorem checkFlag_zero : checkFlag 0 = .ok () := rfl

/-- Decoding a serialized well-formed container with zero padding markers
and supported flag bits succeeds with the expected record. -/
theorem EOTFile_encode_ok (f : EOTFields) (hwf : WF f)
    (hz1 : f.padding1 = 0) (hz2 : f.padding2 = 0) (hz3 : f.padding3 = 0)
    (hz4 : f.padding4 = 0) (hz5 : f.padding5 = 0) (hz6 : f.padding6 = 0)
    (hcf : checkFlag f.flags = .ok ()) (hce : checkFlag f.eudcFlags = .ok ()) :
    EOTFile (encode f) = .ok (mkRecord f) := by
  have hm := populate_encode f hwf
  rw [if_neg (fun h => h hz1), if_neg (fun h => h hz2), if_neg (fun h => h hz3),
    if_neg (fun h => h hz4), if_neg (fun h => h.2 hz5), if_neg (fun h => h.2 hz6)] at hm
  have hflags : checkFlag (mkRecord f).flags = .ok () := hcf
  have heudc : checkFlag (mkRecord f).eudc_flags = .ok () := by
    by_cases hg : 0x00020001 < f.version
    · have h2 : (mkRecord f).eudc_flags = f.eudcFlags := by simp [mkRecord, hg]
      rw [h2]
      exact hce
    · have h2 : (mkRecord f).eudc_flags = 0 := by simp [mkRecord, hg]
      rw [h2]
      exact checkFlag_zero
  simp only [EOTFile, hm, hflags, heudc]

/-! ## The claims -/

/-- C1 (counterexample): a 36-byte all-zero buffer has a magic-number
field (0) different from `0x504C`, yet decoding fails with the
unknown-version error, not the bad-magic error: the version check at
offset 8 runs before the magic check at offset 34. -/
theorem c1_magic_counterexample :
    u16At (List.replicate 36 0) 34 ≠ MAGIC_NUMBER ∧
    EOTFile (List.replicate 36 0) = .error .unknownVersion ∧
    Err.unknownVersion ≠ Err.badMagic := by decide

/-- C1 (amended): for every input buffer of at least 36 bytes whose
version field (the u32 at offset 8) is one of the three known constants,
a magic-number field (the u16 at offset 34) different from `0x504C` makes
decoding fail with the bad-magic error, independent of all other field
values. -/
theorem c1_bad_magic (data : List Nat) (h36 : 36 ≤ data.length)
    (hv : versionIsValid (u32At data 8)) (hm : u16At data 34 ≠ MAGIC_NUMBER) :
    EOTFile data = .error .badMagic := by
  have e0 : getUnsignedLong data 0 = .ok (u32At data 0, 4) := getUnsignedLong_ok (by omega)
  have e4 : getUnsignedLong data 4 = .ok (u32At data 4, 8) := getUnsignedLong_ok (by omega)
  have e8 : getUnsignedLong data 8 = .ok (u32At data 8, 12) := getUnsignedLong_ok (by omega)
  have e12 : getUnsignedLong data 12 = .ok (u32At data 12, 16) := getUnsignedLong_ok (by omega)
  have e16 : getBytes 10 data 16 = .ok ((data.drop 16).take 10, 26) := getBytes_ok (by omega)
  have e26 : getBytes 1 data 26 = .ok ((data.drop 26).take 1, 27) := getBytes_ok (by omega)
  have e27 : getBytes 1 data 27 = .ok ((data.drop 27).take 1, 28) := getBytes_ok (by omega)
  have e28 : getUnsignedLong data 28 = .ok (u32At data 28, 32) := getUnsignedLong_ok (by omega)
  have e32 : getUnsignedShort data 32 = .ok (u16At data 32, 34) := getUnsignedShort_ok (by omega)
  have e34 : getUnsignedShort data 34 = .ok (u16At data 34, 36) := getUnsignedShort_ok (by omega)
  simp only [EOTFile, populate, Parser.bind_eq, e0, e4, e8, e12, e16, e26, e27, e28, e32, e34,
    hv, hm, Parser.throw_eq, Parser.pure_eq, not_true, not_false_iff, ne_eq,
    if_true, ite_true, ite_false, if_false]

/-- C1 (amended, witness): a concrete 36-byte buffer with a valid version
field and a zero magic field decodes to the bad-magic error. -/
theorem c1_bad_magic_witness :
    36 ≤ badMagicData.length ∧ versionIsValid (u32At badMagicData 8) ∧
    u16At badMagicData 34 ≠ MAGIC_NUMBER ∧ EOTFile badMagicData = .error .badMagic :=
  ⟨by decide, by decide, by decide,
    c1_bad_magic badMagicData (by decide) (by decide) (by decide)⟩

/-- C2: truncating any successfully parsed container strictly before the
start of the font-data payload (byte offset `n - |font_data|`, where `n`
is the total number of bytes the parse consumed) makes decoding fail with
the out-of-bounds error; and no primitive read ever returns fewer bytes
than requested or succeeds without enough input remaining. -/
theorem c2_truncation_safe :
    (∀ (data : List Nat) (r : EOTRecord) (n t : Nat),
        populate data 0 = .ok (r, n) → t < n - r.font_data.length →
        EOTFile (data.take t) = .error .truncated) ∧
    (∀ (n : Nat) (data : List Nat) (off : Nat) (bs : List Nat) (m : Nat),
        getBytes n data off = .ok (bs, m) →
        bs.length = n ∧ m = off + n ∧ off + n ≤ data.length) ∧
    (∀ (data : List Nat) (off v m : Nat),
        getUnsignedShort data off = .ok (v, m) → off + 2 ≤ data.length ∧ m = off + 2) ∧
    (∀ (data : List Nat) (off v m : Nat),
        getUnsignedLong data off = .ok (v, m) → off + 4 ≤ data.length ∧ m = off + 4) := by
  refine ⟨?_, ?_, ?_, ?_⟩
  · intro data r n t hp ht
    obtain ⟨h1, h2, h3, h4⟩ := good_populate data 0 r n hp
    have htr : populate (data.take t) 0 = .error .truncated :=
      h4 t (Nat.zero_le _) (by omega)
    simp only [EOTFile, htr]
  · intro n data off bs m h
    unfold getBytes at h
    by_cases hle : off + n ≤ data.length
    · rw [if_pos hle] at h
      rw [Except.ok.injEq, Prod.mk.injEq] at h
      obtain ⟨h1, h2⟩ := h
      refine ⟨?_, by omega, hle⟩
      rw [← h1, List.length_take, List.length_drop]
      exact inf_eq_left.mpr (by omega)
    · rw [if_neg hle] at h; cases h
  · intro data off v m h
    unfold getUnsignedShort at h
    by_cases hle : off + 2 ≤ data.length
    · rw [if_pos hle] at h
      rw [Except.ok.injEq, Prod.mk.injEq] at h
      exact ⟨hle, h.2.symm⟩
    · rw [if_neg hle] at h; cases h
  · intro data off v m h
    unfold getUnsignedLong at h
    by_cases hle : off + 4 ≤ data.length
    · rw [if_pos hle] at h
      rw [Except.ok.injEq, Prod.mk.injEq] at h
      exact ⟨hle, h.2.symm⟩
    · rw [if_neg hle] at h; cases h

/-- C2 (witness): truncating the sample container to its first 50 bytes
(before its font data, which starts at offset 98 of 100) yields the
out-of-bounds error, and the primitive reads behave exactly on a concrete
buffer. -/
theorem c2_truncation_safe_witness :
    EOTFile (sample1Data.take 50) = .error .truncated ∧
    ([1, 2].length = 2 ∧ (2 : Nat) = 0 + 2 ∧ 0 + 2 ≤ [1, 2, 3].length) := by
  constructor
  · exact c2_truncation_safe.1 sample1Data sample1Rec 100 50 (by decide) (by decide)
  · exact c2_truncation_safe.2.1 2 [1, 2, 3] 0 [1, 2] 2 (by decide)

/-- C3: on a container that parses successfully, a set TrueType-compressed
bit in the top-level or the EUDC processing flags makes the decode fail
with the unsupported-compression error (no record is returned), provided
no XOR-encryption bit is set; a set XOR-encryption bit analogously yields
the unsupported-encryption error. -/
theorem c3_unsupported_flags :
    (∀ (data : List Nat) (r : EOTRecord) (n : Nat),
        populate data 0 = .ok (r, n) →
        (r.flags &&& TT_COMPRESSED = TT_COMPRESSED ∨
          r.eudc_flags &&& TT_COMPRESSED = TT_COMPRESSED) →
        ¬ r.flags &&& XOR_ENCRYPT_DATA = XOR_ENCRYPT_DATA →
        ¬ r.eudc_flags &&& XOR_ENCRYPT_DATA = XOR_ENCRYPT_DATA →
        EOTFile data = .error .unsupportedCompression) ∧
    (∀ (data : List Nat) (r : EOTRecord) (n : Nat),
        populate data 0 = .ok (r, n) →
        (r.flags &&& XOR_ENCRYPT_DATA = XOR_ENCRYPT_DATA ∨
          r.eudc_flags &&& XOR_ENCRYPT_DATA = XOR_ENCRYPT_DATA) →
        ¬ r.flags &&& TT_COMPRESSED = TT_COMPRESSED →
        ¬ r.eudc_flags &&& TT_COMPRESSED = TT_COMPRESSED →
        EOTFile data = .error .unsupportedEncryption) := by
  constructor
  · intro data r n hp htt hx1 hx2
    by_cases hf : r.flags &&& TT_COMPRESSED = TT_COMPRESSED
    · have h1 : checkFlag r.flags = .error .unsupportedCompression := by
        unfold checkFlag; rw [if_pos hf]
      simp only [EOTFile, hp, h1]
    · rcases htt with h | h
      · exact absurd h hf
      · have h1 : checkFlag r.flags = .ok () := by
          unfold checkFlag; rw [if_neg hf, if_neg hx1]
        have h2 : checkFlag r.eudc_flags = .error .unsupportedCompression := by
          unfold checkFlag; rw [if_pos h]
        simp only [EOTFile, hp, h1, h2]
  · intro data r n hp hxx ht1 ht2
    by_cases hf : r.flags &&& XOR_ENCRYPT_DATA = XOR_ENCRYPT_DATA
    · have h1 : checkFlag r.flags = .error .unsupportedEncryption := by
        unfold checkFlag; rw [if_neg ht1, if_pos hf]
      simp only [EOTFile, hp, h1]
    · rcases hxx with h | h
      · exact absurd h hf
      · have h1 : checkFlag r.flags = .ok () := by
          unfold checkFlag; rw [if_neg ht1, if_neg hf]
        have h2 : checkFlag r.eudc_flags = .error .unsupportedEncryption := by
          unfold checkFlag; rw [if_neg ht2, if_pos h]
        simp only [EOTFile, hp, h1, h2]

/-- C3 (witness): the sample container with the TrueType-compressed flag
bit set decodes to the unsupported-compression error, and with the
XOR-encryption bit set to the unsupported-encryption error. -/
theorem c3_unsupported_flags_witness :
    EOTFile sampleTTData = .error .unsupportedCompression ∧
    EOTFile sampleXORData = .error .unsupportedEncryption := by
  constructor
  · exact c3_unsupported_flags.1 sampleTTData (mkRecord sampleFieldsTT) sampleTTData.length
      (by decide) (Or.inl (by decide)) (by decide) (by decide)
  · exact c3_unsupported_flags.2 sampleXORData (mkRecord sampleFieldsXOR) sampleXORData.length
      (by decide) (Or.inl (by decide)) (by decide) (by decide)

/-- C8: decoding is a pure function of the input bytes: it is
deterministic, two runs on the same buffer give structurally equal records
or equal failure kinds, and no state is carried between calls. -/
theorem c8_pure_decode :
    ∀ data : List Nat,
      EOTFile data = EOTFile data ∧
      (∀ r1 r2 : EOTRecord, EOTFile data = .ok r1 → EOTFile data = .ok r2 → r1 = r2) ∧
      (∀ e1 e2 : Err, EOTFile data = .error e1 → EOTFile data = .error e2 → e1 = e2) := by
  intro data
  refine ⟨rfl, ?_, ?_⟩
  · intro r1 r2 h1 h2
    rw [h1] at h2
    injection h2
  · intro e1 e2 h1 h2
    rw [h1] at h2
    injection h2

/-- C8 (witness): two decodes of the sample container give the same
record, and two decodes of an invalid buffer give the same error kind. -/
theorem c8_pure_decode_witness :
    sample1Rec = sample1Rec ∧ Err.unknownVersion = Err.unknownVersion := by
  constructor
  · exact (c8_pure_decode sample1Data).2.1 sample1Rec sample1Rec (by decide) (by decide)
  · exact (c8_pure_decode (List.replicate 12 0)).2.2 .unknownVersion .unknownVersion
      (by decide) (by decide)

/-- C4: a well-formed container with a present root-string section whose
bytes are the UTF-16-LE encoding of `"a\u0000b\u0000"` decodes with
root-string sequence exactly `["a", "b", ""]` (code points `[[97], [98],
[]]`): the decoded text is split on the code point 0, preserving empty
segments, with no trimming and no deduplication. -/
theorem c4_root_string_split :
    ∀ f : EOTFields, WF f → 0x00010000 < f.version →
      f.rootString = [0x61, 0, 0, 0, 0x62, 0, 0, 0] →
      f.padding1 = 0 → f.padding2 = 0 → f.padding3 = 0 → f.padding4 = 0 →
      f.padding5 = 0 → f.padding6 = 0 →
      populate (encode f) 0 = .ok (mkRecord f, (encode f).length) ∧
      (mkRecord f).root_string = [[0x61], [0x62], []] ∧
      (mkRecord f).root_string = splitOnZero ((utf16leDecode f.rootString).getD []) := by
  intro f hwf hg hroot hz1 hz2 hz3 hz4 hz5 hz6
  have hm := populate_encode f hwf
  rw [if_neg (fun h => h hz1), if_neg (fun h => h hz2), if_neg (fun h => h hz3),
    if_neg (fun h => h hz4), if_neg (fun h => h.2 hz5), if_neg (fun h => h.2 hz6)] at hm
  have hfield : (mkRecord f).root_string = splitOnZero ((utf16leDecode f.rootString).getD []) := by
    simp [mkRecord, hg]
  refine ⟨hm, ?_, hfield⟩
  rw [hfield, hroot]
  rfl

/-- C4 (witness): the concrete version-0x00020002 sample with those
root-string bytes decodes with root-string `[[97], [98], []]`. -/
theorem c4_root_string_split_witness :
    populate sample3Data 0 = .ok (mkRecord sampleFields3, sample3Data.length) ∧
    (mkRecord sampleFields3).root_string = [[0x61], [0x62], []] := by
  have h := c4_root_string_split sampleFields3 (by decide) (by decide) rfl
    rfl rfl rfl rfl rfl rfl
  exact ⟨h.1, h.2.1⟩

/-- C5: a buffer of at least 12 bytes whose version field (u32 at offset
8) is not one of the three known constants decodes to the unknown-version
error; and every well-formed container (any of the three versions, with
its version-appropriate optional sections, zero padding and supported
flags) decodes without error. -/
theorem c5_version_validation :
    (∀ data : List Nat, 12 ≤ data.length → ¬ versionIsValid (u32At data 8) →
        EOTFile data = .error .unknownVersion) ∧
    (∀ f : EOTFields, WF f →
        f.padding1 = 0 → f.padding2 = 0 → f.padding3 = 0 → f.padding4 = 0 →
        f.padding5 = 0 → f.padding6 = 0 →
        checkFlag f.flags = .ok () → checkFlag f.eudcFlags = .ok () →
        EOTFile (encode f) = .ok (mkRecord f)) := by
  constructor
  · intro data h hv
    have e0 : getUnsignedLong data 0 = .ok (u32At data 0, 4) := getUnsignedLong_ok (by omega)
    have e4 : getUnsignedLong data 4 = .ok (u32At data 4, 8) := getUnsignedLong_ok (by omega)
    have e8 : getUnsignedLong data 8 = .ok (u32At data 8, 12) := getUnsignedLong_ok (by omega)
    simp only [EOTFile, populate, Parser.bind_eq, e0, e4, e8, hv, Parser.throw_eq,
      not_false_iff, if_true, ite_true, ite_false, if_false]
  · intro f hwf hz1 hz2 hz3 hz4 hz5 hz6 hcf hce
    exact EOTFile_encode_ok f hwf hz1 hz2 hz3 hz4 hz5 hz6 hcf hce

/-- C5 (witness): a 12-byte zero buffer (version 0) is rejected with the
unknown-version error, and concrete containers of all three known
versions decode without error. -/
theorem c5_version_validation_witness :
    EOTFile (List.replicate 12 0) = .error .unknownVersion ∧
    EOTFile sample1Data = .ok (mkRecord sampleFields1) ∧
    EOTFile sample2Data = .ok (mkRecord sampleFields2) ∧
    EOTFile sample3Data = .ok (mkRecord sampleFields3) := by
  refine ⟨?_, ?_, ?_, ?_⟩
  · exact c5_version_validation.1 (List.replicate 12 0) (by decide) (by decide)
  · exact c5_version_validation.2 sampleFields1 (by decide) rfl rfl rfl rfl rfl rfl
      (by decide) (by decide)
  · exact c5_version_validation.2 sampleFields2 (by decide) rfl rfl rfl rfl rfl rfl
      (by decide) (by decide)
  · exact c5_version_validation.2 sampleFields3 (by decide) rfl rfl rfl rfl rfl rfl
      (by decide) (by decide)

/-- C6: in every successfully decoded record, a version equal to
0x00010000 leaves the root-string sequence empty, the root-string
checksum and EUDC code page at the sentinel -1, the signature empty, the
EUDC flags zero and the EUDC font data empty; a version equal to
0x00020001 keeps the same sentinels for the section-B fields. -/
theorem c6_version_sentinels :
    ∀ (data : List Nat) (r : EOTRecord), EOTFile data = .ok r →
      (r.version = 0x00010000 →
        r.root_string = [] ∧ r.root_string_checksum = -1 ∧ r.eudc_code_page = -1 ∧
        r.signature = [] ∧ r.eudc_flags = 0 ∧ r.eudc_font_data = []) ∧
      (r.version = 0x00020001 →
        r.root_string_checksum = -1 ∧ r.eudc_code_page = -1 ∧ r.signature = [] ∧
        r.eudc_flags = 0 ∧ r.eudc_font_data = []) := by
  intro data r h
  obtain ⟨n, hp, -, -⟩ := EOTFile_ok_inv h
  obtain ⟨hA, hB⟩ := populate_version_gating hp
  constructor
  · intro hver
    have h1 := hA (by omega)
    have h2 := hB (by omega)
    exact ⟨h1, h2.1, h2.2.1, h2.2.2.1, h2.2.2.2.1, h2.2.2.2.2⟩
  · intro hver
    exact hB (by omega)

/-- C6 (witness): the version-0x00010000 sample record carries all the
sentinels, and the version-0x00020001 sample record carries the section-B
sentinels. -/
theorem c6_version_sentinels_witness :
    (sample1Rec.root_string = [] ∧ sample1Rec.root_string_checksum = -1 ∧
      sample1Rec.eudc_code_page = -1 ∧ sample1Rec.signature = [] ∧
      sample1Rec.eudc_flags = 0 ∧ sample1Rec.eudc_font_data = []) ∧
    ((mkRecord sampleFields2).root_string_checksum = -1 ∧
      (mkRecord sampleFields2).eudc_code_page = -1 ∧
      (mkRecord sampleFields2).signature = [] ∧
      (mkRecord sampleFields2).eudc_flags = 0 ∧
      (mkRecord sampleFields2).eudc_font_data = []) := by
  constructor
  · exact (c6_version_sentinels sample1Data sample1Rec (by decide)).1 (by decide)
  · exact (c6_version_sentinels sample2Data (mkRecord sampleFields2) (by decide)).2 (by decide)

/-- C7: a well-formed container whose only non-zero applicable padding
marker is marker `i` (markers 1-4 for all versions, marker 5 only when
the version exceeds 0x00010000, marker 6 only when it exceeds
0x00020001) decodes to the bad-padding error for exactly index `i`. -/
theorem c7_bad_padding :
    ∀ (f : EOTFields) (i : Nat), WF f → 1 ≤ i → i ≤ 6 →
      (i = 5 → 0x00010000 < f.version) → (i = 6 → 0x00020001 < f.version) →
      paddingVal f i ≠ 0 →
      (∀ j, 1 ≤ j → j ≤ 6 → j ≠ i → paddingVal f j = 0) →
      EOTFile (encode f) = .error (.badPadding i) := by
  intro f i hwf h1 h6 hg5 hg6 hnz hothers
  have hm := populate_encode f hwf
  interval_cases i
  · have hz : f.padding1 ≠ 0 := hnz
    rw [if_pos hz] at hm
    simp only [EOTFile, hm]
  · have hz1 : f.padding1 = 0 := hothers 1 (by omega) (by omega) (by omega)
    have hz : f.padding2 ≠ 0 := hnz
    rw [if_neg (fun h => h hz1), if_pos hz] at hm
    simp only [EOTFile, hm]
  · have hz1 : f.padding1 = 0 := hothers 1 (by omega) (by omega) (by omega)
    have hz2 : f.padding2 = 0 := hothers 2 (by omega) (by omega) (by omega)
    have hz : f.padding3 ≠ 0 := hnz
    rw [if_neg (fun h => h hz1), if_neg (fun h => h hz2), if_pos hz] at hm
    simp only [EOTFile, hm]
  · have hz1 : f.padding1 = 0 := hothers 1 (by omega) (by omega) (by omega)
    have hz2 : f.padding2 = 0 := hothers 2 (by omega) (by omega) (by omega)
    have hz3 : f.padding3 = 0 := hothers 3 (by omega) (by omega) (by omega)
    have hz : f.padding4 ≠ 0 := hnz
    rw [if_neg (fun h => h hz1), if_neg (fun h => h hz2), if_neg (fun h => h hz3),
      if_pos hz] at hm
    simp only [EOTFile, hm]
  · have hz1 : f.padding1 = 0 := hothers 1 (by omega) (by omega) (by omega)
    have hz2 : f.padding2 = 0 := hothers 2 (by omega) (by omega) (by omega)
    have hz3 : f.padding3 = 0 := hothers 3 (by omega) (by omega) (by omega)
    have hz4 : f.padding4 = 0 := hothers 4 (by omega) (by omega) (by omega)
    rw [if_neg (fun h => h hz1), if_neg (fun h => h hz2), if_neg (fun h => h hz3),
      if_neg (fun h => h hz4), if_pos ⟨hg5 rfl, (hnz : f.padding5 ≠ 0)⟩] at hm
    simp only [EOTFile, hm]
  · have hz1 : f.padding1 = 0 := hothers 1 (by omega) (by omega) (by omega)
    have hz2 : f.padding2 = 0 := hothers 2 (by omega) (by omega) (by omega)
    have hz3 : f.padding3 = 0 := hothers 3 (by omega) (by omega) (by omega)
    have hz4 : f.padding4 = 0 := hothers 4 (by omega) (by omega) (by omega)
    have hz5 : f.padding5 = 0 := hothers 5 (by omega) (by omega) (by omega)
    rw [if_neg (fun h => h hz1), if_neg (fun h => h hz2), if_neg (fun h => h hz3),
      if_neg (fun h => h hz4), if_neg (fun h => h.2 hz5),
      if_pos ⟨hg6 rfl, (hnz : f.padding6 ≠ 0)⟩] at hm
    simp only [EOTFile, hm]

/-- C7 (witness): the sample container with padding marker 2 set to 7
decodes to the bad-padding error for index 2. -/
theorem c7_bad_padding_witness :
    WF sampleFieldsPad2 ∧ paddingVal sampleFieldsPad2 2 ≠ 0 ∧
    EOTFile samplePad2Data = .error (.badPadding 2) := by
  refine ⟨by decide, by decide, ?_⟩
  exact c7_bad_padding sampleFieldsPad2 2 (by decide) (by omega) (by omega)
    (fun h => absurd h (by omega)) (fun h => absurd h (by omega)) (by decide)
    (fun j hj1 hj6 hji => by interval_cases j <;> first | rfl | exact absurd rfl hji)

/-- C9: a well-formed container with a present root-string section of
declared size 0 decodes with root-string sequence `[""]` (one empty
string), which differs from the empty sequence that marks an absent
section, so the two cases are distinguishable in the record. -/
theorem c9_empty_root_string :
    ∀ f : EOTFields, WF f → 0x00010000 < f.version → f.rootString = [] →
      f.padding1 = 0 → f.padding2 = 0 → f.padding3 = 0 → f.padding4 = 0 →
      f.padding5 = 0 → f.padding6 = 0 →
      populate (encode f) 0 = .ok (mkRecord f, (encode f).length) ∧
      (mkRecord f).root_string = [[]] ∧ (mkRecord f).root_string ≠ [] := by
  intro f hwf hg hroot hz1 hz2 hz3 hz4 hz5 hz6
  have hm := populate_encode f hwf
  rw [if_neg (fun h => h hz1), if_neg (fun h => h hz2), if_neg (fun h => h hz3),
    if_neg (fun h => h hz4), if_neg (fun h => h.2 hz5), if_neg (fun h => h.2 hz6)] at hm
  have hfield : (mkRecord f).root_string = [[]] := by
    simp [mkRecord, hg, hroot]
    rfl
  exact ⟨hm, hfield, by rw [hfield]; simp⟩

/-- C9 (witness): the version-0x00020001 sample with an empty root-string
section decodes with root-string `[[]]`. -/
theorem c9_empty_root_string_witness :
    populate sample2Data 0 = .ok (mkRecord sampleFields2, sample2Data.length) ∧
    (mkRecord sampleFields2).root_string = [[]] := by
  have h := c9_empty_root_string sampleFields2 (by decide) (by decide) rfl
    rfl rfl rfl rfl rfl rfl
  exact ⟨h.1, h.2.1⟩

/-- C10: decoding only depends on the prefix it consumes: appending
arbitrary bytes to a successfully decoded buffer decodes to the identical
record; and the container-size field is stored in the record without ever
being compared to the buffer length, so a well-formed container decodes
successfully with any stored size value. -/
theorem c10_trailing_bytes :
    (∀ (data extra : List Nat) (r : EOTRecord),
        EOTFile data = .ok r → EOTFile (data ++ extra) = .ok r) ∧
    (∀ (f : EOTFields) (s : Nat), WF f → s < 4294967296 →
        f.padding1 = 0 → f.padding2 = 0 → f.padding3 = 0 → f.padding4 = 0 →
        f.padding5 = 0 → f.padding6 = 0 →
        checkFlag f.flags = .ok () → checkFlag f.eudcFlags = .ok () →
        EOTFile (encode { f with eotSize := s }) = .ok { mkRecord f with eot_size := s }) := by
  constructor
  · intro data extra r h
    obtain ⟨n, hp, hc1, hc2⟩ := EOTFile_ok_inv h
    obtain ⟨h1, h2, h3, h4⟩ := good_populate data 0 r n hp
    have hlen : n ≤ data.length := h2 (Nat.zero_le _)
    have htake : (data ++ extra).take n = data.take n := List.take_append_of_le_length hlen
    have hp2 : populate (data ++ extra) 0 = .ok (r, n) := h3 _ htake
    simp only [EOTFile, hp2, hc1, hc2]
  · intro f s hwf hs hz1 hz2 hz3 hz4 hz5 hz6 hcf hce
    have hwf2 : WF { f with eotSize := s } := ⟨hwf.1, hs, hwf.2.2⟩
    exact EOTFile_encode_ok { f with eotSize := s } hwf2 hz1 hz2 hz3 hz4 hz5 hz6 hcf hce

/-- C10 (witness): appending junk bytes to the sample container leaves
the decoded record unchanged, and replacing the stored container size by
5 (unrelated to the actual 100-byte length) still decodes. -/
theorem c10_trailing_bytes_witness :
    EOTFile (sample1Data ++ [255, 0, 17]) = .ok sample1Rec ∧
    EOTFile (encode { sampleFields1 with eotSize := 5 }) =
      .ok { mkRecord sampleFields1 with eot_size := 5 } := by
  constructor
  · exact c10_trailing_bytes.1 sample1Data [255, 0, 17] sample1Rec (by decide)
  · exact c10_trailing_bytes.2 sampleFields1 5 (by decide) (by decide) rfl rfl rfl rfl rfl rfl
      (by decide) (by decide)
